import Mathlib

/-!
Shallow embedding of the order-management backend in `src/server.js`.

A Stock's `sizes` field is a JavaScript object mapping size labels to
numbers; we embed it as an association list `List (String × Int)` so
that key presence and insertion order (both observable, the object is
serialized to clients) are preserved.  Every read in the source is
normalized with `Number(x || 0)`, which over integers is lookup-or-0.

The three order handlers (POST, PUT, DELETE on /api/orders) are
translated as pure state transformers on a `DB` record holding the two
collections.  Each returns the resulting database together with an
optional error, because the PUT handler persists a stock save and can
then still fail: the caller sees an error while the database has
already changed.
-/

/-- A JavaScript object used as a size → quantity map: association list
keyed by size label, in insertion order. -/
abbrev Sizes := List (String × Int)

/-- Read `Number(sizes[k] || 0)`: value at the first occurrence of the
key, absent keys normalized to 0. -/
def sizesGet : Sizes → String → Int
  | [], _ => 0
  | (k', v) :: rest, k => if k' = k then v else sizesGet rest k

/-- JavaScript property assignment `sizes[k] = v`: overwrite the value
at an existing key in place, or append a new key at the end. -/
def sizesSet : Sizes → String → Int → Sizes
  | [], k, v => [(k, v)]
  | (k', v') :: rest, k, v =>
      if k' = k then (k, v) :: rest else (k', v') :: sizesSet rest k v

/-- Whether the key is present in the object (`k in sizes`). -/
def hasKey : Sizes → String → Bool
  | [], _ => false
  | (k', _) :: rest, k => k' == k || hasKey rest k

/-- A Stock document: `{ _id, category, name, sizes }`. -/
structure StockRec where
  id : String
  category : String
  name : String
  sizes : Sizes
deriving DecidableEq

/-- An Order document with the fields of `orderSchema`. -/
structure OrderRec where
  id : String
  customerName : String
  phone : String
  address : String
  payment : String
  category : String
  itemId : String
  itemName : String
  size : String
  qty : Int
  notes : String
  price : Int
  status : String
deriving DecidableEq

/-- The two mutable collections of the document store. -/
structure DB where
  stocks : List StockRec
  orders : List OrderRec
deriving DecidableEq

/-- The structured error responses of the order handlers. -/
inductive OrderError where
  /-- Response 400 "missing fields". -/
  | missingFields
  /-- Response 400 "stock item not found" (create). -/
  | stockNotFound
  /-- Response 404 "order not found". -/
  | orderNotFound
  /-- Response 400 "stock item missing" (update, same item and size). -/
  | stockItemMissing
  /-- Response 400 "new stock item missing" (update, item or size changed). -/
  | newStockMissing
  /-- Response 400 "not enough stock", carrying the available count. -/
  | insufficient (available : Int)
deriving DecidableEq

/-- Models `Stock.findById` on a collection. -/
def findStockIn (stocks : List StockRec) (i : String) : Option StockRec :=
  stocks.find? (fun st => st.id == i)

/-- Models `Stock.findById` on the database. -/
def findStock (db : DB) (i : String) : Option StockRec :=
  findStockIn db.stocks i

/-- Models `Order.findById` on a collection. -/
def findOrderIn (orders : List OrderRec) (i : String) : Option OrderRec :=
  orders.find? (fun o => o.id == i)

/-- Models `Order.findById` on the database. -/
def findOrder (db : DB) (i : String) : Option OrderRec :=
  findOrderIn db.orders i

/-- Models `stock.save()`: write the document back under its id. -/
def saveStock (stocks : List StockRec) (st : StockRec) : List StockRec :=
  stocks.map (fun s => if s.id == st.id then st else s)

/-- Models `order.save()`: write the document back under its id. -/
def saveOrder (orders : List OrderRec) (o : OrderRec) : List OrderRec :=
  orders.map (fun x => if x.id == o.id then o else x)

/-- Models `Order.deleteOne` by id: remove the first document with the id. -/
def deleteOrderIn : List OrderRec → String → List OrderRec
  | [], _ => []
  | o :: rest, i => if o.id == i then rest else o :: deleteOrderIn rest i

/-- JavaScript `x || d` on an optional string: absent or empty falls
back to the default. -/
def jsStrOr (x : Option String) (d : String) : String :=
  match x with
  | some s => if s = "" then d else s
  | none => d

/-- Models `Number(qty || 1)` in the POST handler: an absent or zero
quantity falls back to 1 (0 is falsy). -/
def jsQtyOr1 (q : Option Int) : Int :=
  match q with
  | some n => if n = 0 then 1 else n
  | none => 1

/-- The reserve step inlined in the POST handler (lines 256-264):
`current = Number(sizes[size] || 0); if (current < want) fail with
available; else sizes[size] = current - want`. -/
def reserve (sizes : Sizes) (size : String) (want : Int) : Except Int Sizes :=
  let current := sizesGet sizes size
  if current < want then Except.error current
  else Except.ok (sizesSet sizes size (current - want))

/-- The release step inlined in the DELETE handler (lines 388-394):
`sizes[size] = Number(sizes[size] || 0) + qty`, never failing. -/
def release (sizes : Sizes) (size : String) (qty : Int) : Sizes :=
  sizesSet sizes size (sizesGet sizes size + qty)

/-- The request body of POST /api/orders, with the optional fields. -/
structure CreateInput where
  customerName : String
  phone : String
  address : Option String
  payment : Option String
  category : Option String
  itemId : String
  itemName : Option String
  size : String
  qty : Option Int
  notes : Option String
  price : Option Int
  status : Option String

/-- POST /api/orders (lines 232-293).  `oid` stands for the id the
store generates for the new order.  Returns the resulting database and
the error response if any. -/
def createOrder (db : DB) (inp : CreateInput) (oid : String) :
    DB × Option OrderError :=
  if inp.customerName = "" ∨ inp.phone = "" ∨ inp.itemId = "" ∨ inp.size = "" then
    (db, some OrderError.missingFields)
  else
    match findStock db inp.itemId with
    | none => (db, some OrderError.stockNotFound)
    | some stock =>
      let want := jsQtyOr1 inp.qty
      match reserve stock.sizes inp.size want with
      | Except.error current => (db, some (OrderError.insufficient current))
      | Except.ok sizes' =>
        let stock' := { stock with sizes := sizes' }
        let order : OrderRec :=
          { id := oid
            customerName := inp.customerName
            phone := inp.phone
            address := inp.address.getD ""
            payment := jsStrOr inp.payment "cash"
            category := inp.category.getD ""
            itemId := inp.itemId
            itemName := jsStrOr inp.itemName stock.name
            size := inp.size
            qty := want
            notes := inp.notes.getD ""
            price := inp.price.getD 0
            status := jsStrOr inp.status "pending" }
        ({ stocks := saveStock db.stocks stock'
           orders := db.orders ++ [order] }, none)

/-- The request body of PUT /api/orders/:id: every field optional. -/
structure Patch where
  customerName : Option String
  phone : Option String
  address : Option String
  payment : Option String
  category : Option String
  itemId : Option String
  itemName : Option String
  size : Option String
  qty : Option Int
  notes : Option String
  price : Option Int
  status : Option String

/-- Lines 355-368 of the PUT handler: overlay the patch on the loaded
order (nullish-coalescing per field), force itemId, size and qty to the
resolved values, and save. -/
def patchedOrder (order : OrderRec) (body : Patch)
    (newItemId newSize : String) (newQty : Int) : OrderRec :=
  { order with
    customerName := body.customerName.getD order.customerName
    phone := body.phone.getD order.phone
    address := body.address.getD order.address
    payment := body.payment.getD order.payment
    category := body.category.getD order.category
    itemId := newItemId
    itemName := body.itemName.getD order.itemName
    size := newSize
    qty := newQty
    notes := body.notes.getD order.notes
    price := body.price.getD order.price
    status := body.status.getD order.status }

/-- PUT /api/orders/:id (lines 295-380). -/
def updateOrder (db : DB) (oid : String) (body : Patch) :
    DB × Option OrderError :=
  match findOrder db oid with
  | none => (db, some OrderError.orderNotFound)
  | some order =>
    let oldQty := order.qty
    let oldItemId := order.itemId
    let oldSize := order.size
    let newQty := body.qty.getD oldQty
    let newItemId := jsStrOr body.itemId oldItemId
    let newSize := jsStrOr body.size oldSize
    if newItemId = oldItemId ∧ newSize = oldSize then
      match findStock db newItemId with
      | none => (db, some OrderError.stockItemMissing)
      | some stock =>
        let current := sizesGet stock.sizes newSize
        let diff := newQty - oldQty
        if 0 < diff then
          match reserve stock.sizes newSize diff with
          | Except.error avail => (db, some (OrderError.insufficient avail))
          | Except.ok sizes' =>
            let db1 := { db with stocks := saveStock db.stocks { stock with sizes := sizes' } }
            ({ db1 with orders := saveOrder db1.orders (patchedOrder order body newItemId newSize newQty) }, none)
        else if diff < 0 then
          let sizes' := sizesSet stock.sizes newSize (current + (-diff))
          let db1 := { db with stocks := saveStock db.stocks { stock with sizes := sizes' } }
          ({ db1 with orders := saveOrder db1.orders (patchedOrder order body newItemId newSize newQty) }, none)
        else
          ({ db with orders := saveOrder db.orders (patchedOrder order body newItemId newSize newQty) }, none)
    else
      -- return to old stock: persisted immediately when the old stock exists
      let db1 :=
        match findStock db oldItemId with
        | some oldStock =>
          let oldStock' := { oldStock with sizes := release oldStock.sizes oldSize oldQty }
          { db with stocks := saveStock db.stocks oldStock' }
        | none => db
      -- take from new stock, looked up in the post-release state
      match findStock db1 newItemId with
      | none => (db1, some OrderError.newStockMissing)
      | some newStock =>
        match reserve newStock.sizes newSize newQty with
        | Except.error avail => (db1, some (OrderError.insufficient avail))
        | Except.ok sizes' =>
          let db2 := { db1 with stocks := saveStock db1.stocks { newStock with sizes := sizes' } }
          ({ db2 with orders := saveOrder db2.orders (patchedOrder order body newItemId newSize newQty) }, none)

/-- DELETE /api/orders/:id (lines 382-404): release the order's
quantity back to its stock when that stock still exists, then delete
the order. -/
def deleteOrder (db : DB) (oid : String) : DB × Option OrderError :=
  match findOrder db oid with
  | none => (db, some OrderError.orderNotFound)
  | some order =>
    let db1 :=
      match findStock db order.itemId with
      | some stock =>
        let stock' := { stock with sizes := release stock.sizes order.size order.qty }
        { db with stocks := saveStock db.stocks stock' }
      | none => db
    ({ db1 with orders := deleteOrderIn db1.orders oid }, none)

/-- The counter a database shows for a stock id and size (0 when the
stock is absent), as a client reading /api/stocks would compute it. -/
def stockSizeIn (db : DB) (sid : String) (sz : String) : Int :=
  match findStock db sid with
  | some st => sizesGet st.sizes sz
  | none => 0

/-! ### Lemmas about the sizes object -/

theorem sizesGet_sizesSet_self (S : Sizes) (s : String) (v : Int) :
    sizesGet (sizesSet S s v) s = v := by
  induction S with
  | nil => simp [sizesSet, sizesGet]
  | cons hd tl ih =>
    obtain ⟨k, w⟩ := hd
    by_cases h : k = s <;> simp [sizesSet, sizesGet, h, ih]

theorem sizesGet_sizesSet_ne (S : Sizes) (s k : String) (v : Int) (h : k ≠ s) :
    sizesGet (sizesSet S s v) k = sizesGet S k := by
  induction S with
  | nil => simp [sizesSet, sizesGet, Ne.symm h]
  | cons hd tl ih =>
    obtain ⟨k', w⟩ := hd
    by_cases h' : k' = s
    · subst h'
      simp [sizesSet, sizesGet, Ne.symm h]
    · simp [sizesSet, sizesGet, h', ih]

theorem sizesSet_self_of_hasKey (S : Sizes) (s : String)
    (h : hasKey S s = true) : sizesSet S s (sizesGet S s) = S := by
  induction S with
  | nil => simp [hasKey] at h
  | cons hd tl ih =>
    obtain ⟨k, w⟩ := hd
    by_cases hk : k = s
    · subst hk
      simp [sizesSet, sizesGet]
    · simp only [hasKey, Bool.or_eq_true, beq_iff_eq] at h
      rcases h with h | h
      · exact absurd h hk
      · simp [sizesSet, sizesGet, hk, ih h]

/-! ### Lemmas about the document store -/

theorem findStockIn_id (stocks : List StockRec) (i : String) (st : StockRec)
    (h : findStockIn stocks i = some st) : st.id = i := by
  have := List.find?_some h
  exact eq_of_beq this

theorem findOrderIn_id (orders : List OrderRec) (i : String) (o : OrderRec)
    (h : findOrderIn orders i = some o) : o.id = i := by
  have := List.find?_some h
  exact eq_of_beq this

theorem findStockIn_saveStock (stocks : List StockRec) (i : String)
    (st st' : StockRec) (hfind : findStockIn stocks i = some st)
    (hid : st'.id = st.id) :
    findStockIn (saveStock stocks st') i = some st' := by
  have hsti : st.id = i := findStockIn_id stocks i st hfind
  induction stocks with
  | nil => simp [findStockIn, List.find?] at hfind
  | cons hd tl ih =>
    by_cases hhd : hd.id = i
    · have h1 : (hd.id == i) = true := beq_iff_eq.mpr hhd
      have hst : st = hd := by
        simp [findStockIn, List.find?, h1] at hfind
        exact hfind.symm
      have h2 : (hd.id == st'.id) = true := by
        rw [hid, hst]
        simp
      have h3 : (st'.id == i) = true := by
        rw [hid, hst]
        exact h1
      have hcons : saveStock (hd :: tl) st' = st' :: saveStock tl st' := by
        have heq : hd.id = st'.id := eq_of_beq h2
        simp [saveStock, heq]
      rw [hcons]
      simp [findStockIn, List.find?, h3]
    · have h1 : (hd.id == i) = false := by
        simp [hhd]
      have hfind' : findStockIn tl i = some st := by
        simpa [findStockIn, List.find?, h1] using hfind
      have h2 : (hd.id == st'.id) = false := by
        simp [hid, hsti, hhd]
      have hcons : saveStock (hd :: tl) st' = hd :: saveStock tl st' := by
        have hne : ¬ hd.id = st'.id := by
          rw [hid, hsti]
          exact hhd
        simp [saveStock, hne]
      rw [hcons]
      simpa [findStockIn, List.find?, h1] using ih hfind'

theorem findOrderIn_saveOrder (orders : List OrderRec) (i : String)
    (o o' : OrderRec) (hfind : findOrderIn orders i = some o)
    (hid : o'.id = o.id) :
    findOrderIn (saveOrder orders o') i = some o' := by
  have hoi : o.id = i := findOrderIn_id orders i o hfind
  induction orders with
  | nil => simp [findOrderIn, List.find?] at hfind
  | cons hd tl ih =>
    by_cases hhd : hd.id = i
    · have h1 : (hd.id == i) = true := beq_iff_eq.mpr hhd
      have hst : o = hd := by
        simp [findOrderIn, List.find?, h1] at hfind
        exact hfind.symm
      have h2 : (hd.id == o'.id) = true := by
        rw [hid, hst]
        simp
      have h3 : (o'.id == i) = true := by
        rw [hid, hst]
        exact h1
      have hcons : saveOrder (hd :: tl) o' = o' :: saveOrder tl o' := by
        have heq : hd.id = o'.id := eq_of_beq h2
        simp [saveOrder, heq]
      rw [hcons]
      simp [findOrderIn, List.find?, h3]
    · have h1 : (hd.id == i) = false := by
        simp [hhd]
      have hfind' : findOrderIn tl i = some o := by
        simpa [findOrderIn, List.find?, h1] using hfind
      have h2 : (hd.id == o'.id) = false := by
        simp [hid, hoi, hhd]
      have hcons : saveOrder (hd :: tl) o' = hd :: saveOrder tl o' := by
        have hne : ¬ hd.id = o'.id := by
          rw [hid, hoi]
          exact hhd
        simp [saveOrder, hne]
      rw [hcons]
      simpa [findOrderIn, List.find?, h1] using ih hfind'

theorem sizesSet_sizesSet (S : Sizes) (s : String) (a b : Int) :
    sizesSet (sizesSet S s a) s b = sizesSet S s b := by
  induction S with
  | nil => simp [sizesSet]
  | cons hd tl ih =>
    obtain ⟨k', w⟩ := hd
    by_cases hk : k' = s
    · simp [sizesSet, hk]
    · simp [sizesSet, hk, ih]

/-! ### Claims -/

/-- C5: release contract: for every stock sizes mapping, size key s and
quantity q, release always succeeds and produces sizes[s] = (previous
sizes[s], absent treated as 0) + q; no upper bound on the resulting
counter is enforced. -/
theorem release_contract (S : Sizes) (s : String) (q : Int) :
    release S s q = sizesSet S s (sizesGet S s + q) ∧
    sizesGet (release S s q) s = sizesGet S s + q ∧
    (∀ B : Int, ∃ q', sizesGet (release S s q') s > B) := by
  refine ⟨rfl, by simp [release, sizesGet_sizesSet_self], fun B => ?_⟩
  refine ⟨B + 1 - sizesGet S s, ?_⟩
  simp only [release, sizesGet_sizesSet_self]
  omega

/-- C1: reserve contract: for every stock sizes mapping, size key s and
requested quantity q, with available defined as sizes[s] (absent treated
as 0): if available < q the operation fails with InsufficientStock
carrying that available value and leaves the sizes mapping unmutated;
otherwise it succeeds and the new mapping satisfies
sizes[s] = available - q. -/
theorem reserve_contract (S : Sizes) (s : String) (q : Int) :
    (sizesGet S s < q → reserve S s q = Except.error (sizesGet S s)) ∧
    (¬ sizesGet S s < q →
        reserve S s q = Except.ok (sizesSet S s (sizesGet S s - q)) ∧
        ∀ S', reserve S s q = Except.ok S' → sizesGet S' s = sizesGet S s - q) ∧
    (∀ db inp oid a,
        (createOrder db inp oid).2 = some (OrderError.insufficient a) →
        (createOrder db inp oid).1 = db ∧
        a = stockSizeIn db inp.itemId inp.size) := by
  refine ⟨?_, ?_, ?_⟩
  · intro h
    simp [reserve, h]
  · intro h
    refine ⟨by simp [reserve, h], fun S' hok => ?_⟩
    simp only [reserve, if_neg h, Except.ok.injEq] at hok
    rw [← hok]
    exact sizesGet_sizesSet_self S s (sizesGet S s - q)
  · intro db inp oid a h
    unfold createOrder at h ⊢
    by_cases hval : inp.customerName = "" ∨ inp.phone = "" ∨ inp.itemId = "" ∨ inp.size = ""
    · rw [if_pos hval] at h
      simp at h
    · rw [if_neg hval] at h ⊢
      cases hfs : findStock db inp.itemId with
      | none =>
        simp only [hfs] at h
        simp at h
      | some stock =>
        simp only [hfs] at h ⊢
        cases hres : reserve stock.sizes inp.size (jsQtyOr1 inp.qty) with
        | error cur =>
          simp only [hres] at h ⊢
          simp only [Option.some.injEq, OrderError.insufficient.injEq] at h
          have hcur : cur = sizesGet stock.sizes inp.size := by
            simp only [reserve] at hres
            split at hres
            · exact (Except.error.injEq _ _).mp hres |>.symm ▸ rfl
            · exact absurd hres (by simp)
          refine ⟨by simp, ?_⟩
          rw [← h, hcur, stockSizeIn, hfs]
        | ok sizes' =>
          simp only [hres] at h
          simp at h

/-- C1 witness: the reserve contract applied at concrete inputs:
a failing reserve, a succeeding reserve, and an insufficient create. -/
theorem reserve_contract_witness :
    reserve [("M", 1)] "M" 2 = Except.error 1 ∧
    reserve [("M", 5)] "M" 2 = Except.ok (sizesSet [("M", 5)] "M" (sizesGet [("M", 5)] "M" - 2)) ∧
    ((createOrder ⟨[⟨"A", "c", "n", [("M", 1)]⟩], []⟩
        ⟨"x", "p", none, none, none, "A", none, "M", some 2, none, none, none⟩ "o1").1
      = ⟨[⟨"A", "c", "n", [("M", 1)]⟩], []⟩) :=
  ⟨(reserve_contract [("M", 1)] "M" 2).1 (by decide),
   ((reserve_contract [("M", 5)] "M" 2).2.1 (by decide)).1,
   ((reserve_contract ([("M", 1)] : Sizes) "M" 2).2.2
      ⟨[⟨"A", "c", "n", [("M", 1)]⟩], []⟩
      ⟨"x", "p", none, none, none, "A", none, "M", some 2, none, none, none⟩
      "o1" 1 (by decide)).1⟩

/-- C6 counterexample: with an absent size key and quantity 0 the
reserve succeeds, yet reserving then releasing does not return the
original mapping: the round trip materializes an explicit ("M", 0)
entry that the empty object did not have. -/
theorem roundtrip_counterexample :
    reserve ([] : Sizes) "M" 0 = Except.ok [("M", 0)] ∧
    release [("M", 0)] "M" 0 = [("M", 0)] ∧
    ([("M", 0)] : Sizes) ≠ ([] : Sizes) := by
  refine ⟨rfl, rfl, by decide⟩

/-- C6 (amended): for every stock S, size s and quantity q for which
reserve(S, s, q) succeeds, applying release with the same size and
quantity to the reserved result restores every counter value of S; the
resulting mapping is moreover equal to the original S whenever the size
key was present in S (key absence, possible only for q ≤ 0, instead
materializes an explicit (s, 0) entry). -/
theorem roundtrip_restores_counters (S : Sizes) (s : String) (q : Int)
    (S' : Sizes) (h : reserve S s q = Except.ok S') :
    (∀ k, sizesGet (release S' s q) k = sizesGet S k) ∧
    (hasKey S s = true → release S' s q = S) := by
  have hnl : ¬ sizesGet S s < q := by
    by_contra hlt
    simp [reserve, hlt] at h
  have hS' : S' = sizesSet S s (sizesGet S s - q) := by
    simp only [reserve, if_neg hnl, Except.ok.injEq] at h
    exact h.symm
  have hrel : release S' s q = sizesSet S s (sizesGet S s) := by
    rw [hS', release, sizesGet_sizesSet_self, sizesSet_sizesSet]
    have harith : sizesGet S s - q + q = sizesGet S s := by omega
    rw [harith]
  refine ⟨fun k => ?_, fun hkey => ?_⟩
  · rw [hrel]
    by_cases hk : k = s
    · rw [hk, sizesGet_sizesSet_self]
    · rw [sizesGet_sizesSet_ne S s k _ hk]
  · rw [hrel]
    exact sizesSet_self_of_hasKey S s hkey

/-- C6 witness: a round trip at a present key: reserving 2 of size M
from a counter of 5 and releasing it again restores the mapping. -/
theorem roundtrip_restores_counters_witness :
    release [("M", 3)] "M" 2 = [("M", 5)] := by
  have h := roundtrip_restores_counters [("M", 5)] "M" 2 [("M", 3)] rfl
  exact h.2 (by decide)

/-- C8 counterexample: an order created with requested quantity 0 does
change the stock: `Number(qty || 1)` treats 0 as absent, so the handler
reserves the default quantity 1 and the M counter drops from 5 to 4. -/
theorem create_zero_qty_counterexample :
    (createOrder ⟨[⟨"A", "c", "n", [("M", 5)]⟩], []⟩
        ⟨"x", "p", none, none, none, "A", none, "M", some 0, none, none, none⟩ "o1").2 = none ∧
    stockSizeIn (createOrder ⟨[⟨"A", "c", "n", [("M", 5)]⟩], []⟩
        ⟨"x", "p", none, none, none, "A", none, "M", some 0, none, none, none⟩ "o1").1 "A" "M" = 4 ∧
    (createOrder ⟨[⟨"A", "c", "n", [("M", 5)]⟩], []⟩
        ⟨"x", "p", none, none, none, "A", none, "M", some 0, none, none, none⟩ "o1").1.stocks
      ≠ [⟨"A", "c", "n", [("M", 5)]⟩] := by
  refine ⟨rfl, rfl, by decide⟩

/-- C8 (amended): reserve(S, s, 0) succeeds whenever the counter is
nonnegative and leaves every counter value unchanged; but createOrder
treats a requested quantity of 0 as absent (`qty || 1` is falsy on 0),
so it behaves exactly like a request for quantity 1 and does change the
stock. -/
theorem reserve_zero_and_create_zero_default (S : Sizes) (s : String)
    (h0 : 0 ≤ sizesGet S s) :
    (∃ S', reserve S s 0 = Except.ok S' ∧ ∀ k, sizesGet S' k = sizesGet S k) ∧
    (∀ (db : DB) (inp : CreateInput) (oid : String),
        createOrder db { inp with qty := some 0 } oid
        = createOrder db { inp with qty := some 1 } oid) := by
  constructor
  · refine ⟨sizesSet S s (sizesGet S s - 0), ?_, fun k => ?_⟩
    · simp only [reserve]
      rw [if_neg (by omega)]
    · by_cases hk : k = s
      · rw [hk, sizesGet_sizesSet_self]
        omega
      · rw [sizesGet_sizesSet_ne S s k _ hk]
  · intro db inp oid
    have hq : jsQtyOr1 (some (0 : Int)) = jsQtyOr1 (some (1 : Int)) := by
      simp [jsQtyOr1]
    simp only [createOrder, hq]

/-- C8 witness: the amended claim applied to a concrete stock with
M = 5: a qty-0 create behaves exactly like a qty-1 create. -/
theorem reserve_zero_and_create_zero_default_witness :
    createOrder ⟨[⟨"A", "c", "n", [("M", 5)]⟩], []⟩
        ⟨"x", "p", none, none, none, "A", none, "M", some 0, none, none, none⟩ "o1"
      = createOrder ⟨[⟨"A", "c", "n", [("M", 5)]⟩], []⟩
        ⟨"x", "p", none, none, none, "A", none, "M", some 1, none, none, none⟩ "o1" :=
  (reserve_zero_and_create_zero_default [("M", 5)] "M" (by decide)).2
    ⟨[⟨"A", "c", "n", [("M", 5)]⟩], []⟩
    ⟨"x", "p", none, none, none, "A", none, "M", some 7, none, none, none⟩ "o1"

/-- C9: negative requested quantities are not rejected: a createOrder
call with qty < 0 against an existing stock whose counter is
nonnegative succeeds, and the counter increases by |qty|. -/
theorem create_negative_qty_accepted (db : DB) (inp : CreateInput)
    (oid : String) (stock : StockRec) (q : Int)
    (hc : inp.customerName ≠ "") (hp : inp.phone ≠ "")
    (hi : inp.itemId ≠ "") (hsz : inp.size ≠ "")
    (hs : findStock db inp.itemId = some stock)
    (hq : inp.qty = some q) (hneg : q < 0)
    (hcur : 0 ≤ sizesGet stock.sizes inp.size) :
    (createOrder db inp oid).2 = none ∧
    stockSizeIn (createOrder db inp oid).1 inp.itemId inp.size
      = sizesGet stock.sizes inp.size + (-q) := by
  have hval : ¬ (inp.customerName = "" ∨ inp.phone = "" ∨ inp.itemId = "" ∨ inp.size = "") := by
    simp [hc, hp, hi, hsz]
  have hwant : jsQtyOr1 inp.qty = q := by
    rw [hq]
    simp [jsQtyOr1]
    omega
  have hres : reserve stock.sizes inp.size (jsQtyOr1 inp.qty)
      = Except.ok (sizesSet stock.sizes inp.size (sizesGet stock.sizes inp.size - q)) := by
    rw [hwant]
    simp only [reserve]
    rw [if_neg (by omega)]
  unfold createOrder
  rw [if_neg hval]
  simp only [hs, hres]
  refine ⟨by simp, ?_⟩
  have hfind := findStockIn_saveStock db.stocks inp.itemId stock
    { stock with sizes := sizesSet stock.sizes inp.size (sizesGet stock.sizes inp.size - q) }
    hs rfl
  simp only [stockSizeIn, findStock, hfind, sizesGet_sizesSet_self]
  omega

/-- C9 witness: creating an order for -3 units of size M against a
counter of 5 succeeds and raises the counter to 8. -/
theorem create_negative_qty_accepted_witness :
    (createOrder ⟨[⟨"A", "c", "n", [("M", 5)]⟩], []⟩
        ⟨"x", "p", none, none, none, "A", none, "M", some (-3), none, none, none⟩ "o1").2 = none ∧
    stockSizeIn (createOrder ⟨[⟨"A", "c", "n", [("M", 5)]⟩], []⟩
        ⟨"x", "p", none, none, none, "A", none, "M", some (-3), none, none, none⟩ "o1").1 "A" "M"
      = 5 + (-(-3)) :=
  create_negative_qty_accepted ⟨[⟨"A", "c", "n", [("M", 5)]⟩], []⟩
    ⟨"x", "p", none, none, none, "A", none, "M", some (-3), none, none, none⟩ "o1"
    ⟨"A", "c", "n", [("M", 5)]⟩ (-3)
    (by decide) (by decide) (by decide) (by decide) (by decide) rfl (by decide) (by decide)

/-- C7: deleteOrder when the referenced Stock no longer exists: the
release step is skipped (no stock counter changes anywhere), the
operation still succeeds and deletes the Order record; the reserved
quantity is never restored. -/
theorem delete_order_missing_stock (db : DB) (oid : String)
    (order : OrderRec) (ho : findOrder db oid = some order)
    (hs : findStock db order.itemId = none) :
    (deleteOrder db oid).2 = none ∧
    (deleteOrder db oid).1.stocks = db.stocks ∧
    (deleteOrder db oid).1.orders = deleteOrderIn db.orders oid := by
  unfold deleteOrder
  simp only [ho, hs]
  exact ⟨trivial, trivial, trivial⟩

/-- C7 witness: deleting an order whose stock id "B" resolves to no
stock leaves the stock collection untouched and removes the order. -/
theorem delete_order_missing_stock_witness :
    (deleteOrder ⟨[⟨"A", "c", "n", [("M", 1)]⟩],
        [⟨"o1", "x", "p", "", "cash", "", "B", "n", "M", 2, "", 0, "pending"⟩]⟩ "o1").2 = none ∧
    (deleteOrder ⟨[⟨"A", "c", "n", [("M", 1)]⟩],
        [⟨"o1", "x", "p", "", "cash", "", "B", "n", "M", 2, "", 0, "pending"⟩]⟩ "o1").1.stocks
      = [⟨"A", "c", "n", [("M", 1)]⟩] ∧
    (deleteOrder ⟨[⟨"A", "c", "n", [("M", 1)]⟩],
        [⟨"o1", "x", "p", "", "cash", "", "B", "n", "M", 2, "", 0, "pending"⟩]⟩ "o1").1.orders
      = deleteOrderIn [⟨"o1", "x", "p", "", "cash", "", "B", "n", "M", 2, "", 0, "pending"⟩] "o1" :=
  delete_order_missing_stock
    ⟨[⟨"A", "c", "n", [("M", 1)]⟩],
        [⟨"o1", "x", "p", "", "cash", "", "B", "n", "M", 2, "", 0, "pending"⟩]⟩ "o1"
    ⟨"o1", "x", "p", "", "cash", "", "B", "n", "M", 2, "", 0, "pending"⟩ rfl rfl

/-- C2: a negative stock counter is reachable through the order
operations alone, refuting the non-negativity invariant: starting from
stock A with M = 0, creating an order for -3 units raises M to 3,
creating an order for 3 units lowers it back to 0, and deleting the
first order then "releases" its -3 units, leaving M = -3 < 0. -/
theorem nonneg_invariant_violated :
    (createOrder ⟨[⟨"A", "c", "n", [("M", 0)]⟩], []⟩
        ⟨"x", "p", none, none, none, "A", none, "M", some (-3), none, none, none⟩ "o1").2 = none ∧
    ((createOrder (createOrder ⟨[⟨"A", "c", "n", [("M", 0)]⟩], []⟩
        ⟨"x", "p", none, none, none, "A", none, "M", some (-3), none, none, none⟩ "o1").1
        ⟨"y", "p", none, none, none, "A", none, "M", some 3, none, none, none⟩ "o2").2 = none) ∧
    ((deleteOrder (createOrder (createOrder ⟨[⟨"A", "c", "n", [("M", 0)]⟩], []⟩
        ⟨"x", "p", none, none, none, "A", none, "M", some (-3), none, none, none⟩ "o1").1
        ⟨"y", "p", none, none, none, "A", none, "M", some 3, none, none, none⟩ "o2").1 "o1").2 = none) ∧
    stockSizeIn (deleteOrder (createOrder (createOrder ⟨[⟨"A", "c", "n", [("M", 0)]⟩], []⟩
        ⟨"x", "p", none, none, none, "A", none, "M", some (-3), none, none, none⟩ "o1").1
        ⟨"y", "p", none, none, none, "A", none, "M", some 3, none, none, none⟩ "o2").1 "o1").1
      "A" "M" = -3 := by
  refine ⟨rfl, rfl, rfl, rfl⟩

/-- C3 counterexample: changing an order's item to a non-existent stock
id makes the update fail with "new stock item missing", not with
insufficiency — yet the release of the old quantity (M: 0 → 2) has
already been persisted. -/
theorem transfer_fails_without_insufficiency :
    (updateOrder ⟨[⟨"A", "c", "n", [("M", 0)]⟩],
        [⟨"o1", "x", "p", "", "cash", "", "A", "n", "M", 2, "", 0, "pending"⟩]⟩ "o1"
        ⟨none, none, none, none, none, some "B", none, none, none, none, none, none⟩).2
      = some OrderError.newStockMissing ∧
    stockSizeIn (updateOrder ⟨[⟨"A", "c", "n", [("M", 0)]⟩],
        [⟨"o1", "x", "p", "", "cash", "", "A", "n", "M", 2, "", 0, "pending"⟩]⟩ "o1"
        ⟨none, none, none, none, none, some "B", none, none, none, none, none, none⟩).1 "A" "M"
      = 2 ∧
    (∀ a : Int, OrderError.newStockMissing ≠ OrderError.insufficient a) :=
  ⟨rfl, rfl, fun _ h => OrderError.noConfusion h⟩

/-- C3 (amended): in the item/size-change branch of updateOrder, when
the old stock exists its old quantity is released and that release is
persisted before the new reserve is examined; the branch can then fail
either because the new stock is missing or because the reserve finds
insufficient availability, and in both failure cases the
already-persisted release is not undone (the result state is exactly
the released state), so the old stock's counter stays inflated by
oldQty.  (When the old stock no longer exists the release is skipped.) -/
theorem transfer_release_persisted_first (db : DB) (oid : String)
    (body : Patch) (order : OrderRec) (oldStock : StockRec)
    (ho : findOrder db oid = some order)
    (hbr : ¬ (jsStrOr body.itemId order.itemId = order.itemId ∧
              jsStrOr body.size order.size = order.size))
    (hos : findStock db order.itemId = some oldStock) :
    sizesGet (release oldStock.sizes order.size order.qty) order.size
      = sizesGet oldStock.sizes order.size + order.qty ∧
    ∀ e, (updateOrder db oid body).2 = some e →
      (updateOrder db oid body).1.stocks
        = saveStock db.stocks { oldStock with sizes := release oldStock.sizes order.size order.qty } ∧
      (updateOrder db oid body).1.orders = db.orders ∧
      (e = OrderError.newStockMissing ∨ ∃ a, e = OrderError.insufficient a) := by
  constructor
  · rw [release, sizesGet_sizesSet_self]
  · intro e he
    unfold updateOrder at he ⊢
    simp only [ho] at he ⊢
    rw [if_neg hbr] at he ⊢
    simp only [hos] at he ⊢
    cases hfn : findStock
        ⟨saveStock db.stocks ⟨oldStock.id, oldStock.category, oldStock.name,
          release oldStock.sizes order.size order.qty⟩, db.orders⟩
        (jsStrOr body.itemId order.itemId) with
    | none =>
      simp only [hfn] at he ⊢
      simp only [Option.some.injEq] at he
      exact ⟨trivial, trivial, Or.inl he.symm⟩
    | some newStock =>
      simp only [hfn] at he ⊢
      cases hres : reserve newStock.sizes (jsStrOr body.size order.size)
          (body.qty.getD order.qty) with
      | error avail =>
        simp only [hres] at he ⊢
        simp only [Option.some.injEq] at he
        exact ⟨trivial, trivial, Or.inr ⟨avail, he.symm⟩⟩
      | ok sizes' =>
        simp only [hres] at he
        simp at he

/-- C3 witness: the amended claim applied to the concrete failing
transfer: after the failed move of order o1 to the absent stock "B",
the database holds exactly the released old stock. -/
theorem transfer_release_persisted_first_witness :
    (updateOrder ⟨[⟨"A", "c", "n", [("M", 0)]⟩],
        [⟨"o1", "x", "p", "", "cash", "", "A", "n", "M", 2, "", 0, "pending"⟩]⟩ "o1"
        ⟨none, none, none, none, none, some "B", none, none, none, none, none, none⟩).1.stocks
      = saveStock [⟨"A", "c", "n", [("M", 0)]⟩]
          { (⟨"A", "c", "n", [("M", 0)]⟩ : StockRec) with sizes := release [("M", 0)] "M" 2 } :=
  ((transfer_release_persisted_first
      ⟨[⟨"A", "c", "n", [("M", 0)]⟩],
        [⟨"o1", "x", "p", "", "cash", "", "A", "n", "M", 2, "", 0, "pending"⟩]⟩ "o1"
      ⟨none, none, none, none, none, some "B", none, none, none, none, none, none⟩
      ⟨"o1", "x", "p", "", "cash", "", "A", "n", "M", 2, "", 0, "pending"⟩
      ⟨"A", "c", "n", [("M", 0)]⟩ rfl (by decide) rfl).2
    OrderError.newStockMissing rfl).1

/-- C4: updateOrder when itemId and size are unchanged: with
diff = newQty - oldQty, if diff > 0 the stock counter for that size is
decremented by diff (failing with the available count when
available < diff), if diff < 0 the counter is incremented by -diff, and
if diff == 0 the counter is unchanged; on success the order's qty
becomes newQty. -/
theorem update_same_item_size (db : DB) (oid : String) (body : Patch)
    (order : OrderRec) (stock : StockRec)
    (ho : findOrder db oid = some order)
    (hid : jsStrOr body.itemId order.itemId = order.itemId)
    (hsz : jsStrOr body.size order.size = order.size)
    (hs : findStock db order.itemId = some stock) :
    (0 < body.qty.getD order.qty - order.qty →
      sizesGet stock.sizes order.size < body.qty.getD order.qty - order.qty →
      updateOrder db oid body
        = (db, some (OrderError.insufficient (sizesGet stock.sizes order.size)))) ∧
    (0 < body.qty.getD order.qty - order.qty →
      ¬ sizesGet stock.sizes order.size < body.qty.getD order.qty - order.qty →
      (updateOrder db oid body).2 = none ∧
      stockSizeIn (updateOrder db oid body).1 order.itemId order.size
        = sizesGet stock.sizes order.size - (body.qty.getD order.qty - order.qty) ∧
      ∃ o', findOrder (updateOrder db oid body).1 oid = some o'
        ∧ o'.qty = body.qty.getD order.qty) ∧
    (body.qty.getD order.qty - order.qty < 0 →
      (updateOrder db oid body).2 = none ∧
      stockSizeIn (updateOrder db oid body).1 order.itemId order.size
        = sizesGet stock.sizes order.size + (-(body.qty.getD order.qty - order.qty)) ∧
      ∃ o', findOrder (updateOrder db oid body).1 oid = some o'
        ∧ o'.qty = body.qty.getD order.qty) ∧
    (body.qty.getD order.qty - order.qty = 0 →
      (updateOrder db oid body).2 = none ∧
      (updateOrder db oid body).1.stocks = db.stocks ∧
      ∃ o', findOrder (updateOrder db oid body).1 oid = some o'
        ∧ o'.qty = body.qty.getD order.qty) := by
  unfold updateOrder
  simp only [ho]
  rw [if_pos ⟨hid, hsz⟩, hid, hsz]
  simp only [hs]
  refine ⟨?_, ?_, ?_, ?_⟩
  · intro h1 h2
    rw [if_pos h1]
    have hres : reserve stock.sizes order.size (body.qty.getD order.qty - order.qty)
        = Except.error (sizesGet stock.sizes order.size) := by
      simp only [reserve]
      rw [if_pos h2]
    simp only [hres]
  · intro h1 h2
    rw [if_pos h1]
    have hres : reserve stock.sizes order.size (body.qty.getD order.qty - order.qty)
        = Except.ok (sizesSet stock.sizes order.size
            (sizesGet stock.sizes order.size - (body.qty.getD order.qty - order.qty))) := by
      simp only [reserve]
      rw [if_neg h2]
    simp only [hres]
    have hfind := findStockIn_saveStock db.stocks order.itemId stock
      ⟨stock.id, stock.category, stock.name, sizesSet stock.sizes order.size
        (sizesGet stock.sizes order.size - (body.qty.getD order.qty - order.qty))⟩ hs rfl
    have hord := findOrderIn_saveOrder db.orders oid order
      (patchedOrder order body order.itemId order.size (body.qty.getD order.qty)) ho rfl
    refine ⟨trivial, ?_, ?_⟩
    · simp only [stockSizeIn, findStock, hfind, sizesGet_sizesSet_self]
    · exact ⟨patchedOrder order body order.itemId order.size (body.qty.getD order.qty),
        by simp only [findOrder, hord], rfl⟩
  · intro h1
    rw [if_neg (by omega), if_pos h1]
    have hfind := findStockIn_saveStock db.stocks order.itemId stock
      ⟨stock.id, stock.category, stock.name, sizesSet stock.sizes order.size
        (sizesGet stock.sizes order.size + (-(body.qty.getD order.qty - order.qty)))⟩ hs rfl
    have hord := findOrderIn_saveOrder db.orders oid order
      (patchedOrder order body order.itemId order.size (body.qty.getD order.qty)) ho rfl
    refine ⟨rfl, ?_, ?_⟩
    · simp only [stockSizeIn, findStock, hfind, sizesGet_sizesSet_self]
    · exact ⟨patchedOrder order body order.itemId order.size (body.qty.getD order.qty),
        by simp only [findOrder, hord], rfl⟩
  · intro h1
    rw [if_neg (by omega), if_neg (by omega)]
    have hord := findOrderIn_saveOrder db.orders oid order
      (patchedOrder order body order.itemId order.size (body.qty.getD order.qty)) ho rfl
    refine ⟨rfl, rfl, ?_⟩
    exact ⟨patchedOrder order body order.itemId order.size (body.qty.getD order.qty),
      by simp only [findOrder, hord], rfl⟩

/-- C4 witness: scenario 3 of the spec: order o1 holds 2 units of M
against a counter of 3; PUT qty 4 gives diff = +2, succeeds, and the
counter drops to 1. -/
theorem update_same_item_size_witness :
    (updateOrder ⟨[⟨"A", "c", "n", [("M", 3)]⟩],
        [⟨"o1", "x", "p", "", "cash", "", "A", "n", "M", 2, "", 0, "pending"⟩]⟩ "o1"
        ⟨none, none, none, none, none, none, none, none, some 4, none, none, none⟩).2 = none ∧
    stockSizeIn (updateOrder ⟨[⟨"A", "c", "n", [("M", 3)]⟩],
        [⟨"o1", "x", "p", "", "cash", "", "A", "n", "M", 2, "", 0, "pending"⟩]⟩ "o1"
        ⟨none, none, none, none, none, none, none, none, some 4, none, none, none⟩).1 "A" "M"
      = 1 :=
  have h := (update_same_item_size
      ⟨[⟨"A", "c", "n", [("M", 3)]⟩],
        [⟨"o1", "x", "p", "", "cash", "", "A", "n", "M", 2, "", 0, "pending"⟩]⟩ "o1"
      ⟨none, none, none, none, none, none, none, none, some 4, none, none, none⟩
      ⟨"o1", "x", "p", "", "cash", "", "A", "n", "M", 2, "", 0, "pending"⟩
      ⟨"A", "c", "n", [("M", 3)]⟩ rfl rfl rfl rfl).2.1 (by decide) (by decide)
  ⟨h.1, h.2.1⟩

/-- C10: order-record frame on update failure: whenever updateOrder
returns an error, the orders collection — and with it every field of
the stored Order record — is exactly as before the call, even though in
the item/size-change branch a Stock record may already have been
modified. -/
theorem update_failure_preserves_orders (db : DB) (oid : String)
    (body : Patch) (e : OrderError)
    (h : (updateOrder db oid body).2 = some e) :
    (updateOrder db oid body).1.orders = db.orders := by
  unfold updateOrder at h ⊢
  cases ho : findOrder db oid with
  | none => simp only [ho]
  | some order =>
    simp only [ho] at h ⊢
    by_cases hbr : (jsStrOr body.itemId order.itemId = order.itemId ∧
        jsStrOr body.size order.size = order.size)
    · rw [if_pos hbr] at h ⊢
      cases hfs : findStock db (jsStrOr body.itemId order.itemId) with
      | none => simp only [hfs]
      | some stock =>
        simp only [hfs] at h ⊢
        by_cases h1 : 0 < body.qty.getD order.qty - order.qty
        · rw [if_pos h1] at h ⊢
          cases hres : reserve stock.sizes (jsStrOr body.size order.size)
              (body.qty.getD order.qty - order.qty) with
          | error avail => simp only [hres]
          | ok sizes' =>
            simp only [hres] at h
            simp at h
        · rw [if_neg h1] at h ⊢
          by_cases h2 : body.qty.getD order.qty - order.qty < 0
          · rw [if_pos h2] at h
            simp at h
          · rw [if_neg h2] at h
            simp at h
    · rw [if_neg hbr] at h ⊢
      cases hos : findStock db order.itemId with
      | none =>
        simp only [hos] at h ⊢
        cases hfn : findStock db (jsStrOr body.itemId order.itemId) with
        | none => simp only [hfn]
        | some newStock =>
          simp only [hfn] at h ⊢
          cases hres : reserve newStock.sizes (jsStrOr body.size order.size)
              (body.qty.getD order.qty) with
          | error avail => simp only [hres]
          | ok sizes' =>
            simp only [hres] at h
            simp at h
      | some oldStock =>
        simp only [hos] at h ⊢
        cases hfn : findStock
            ⟨saveStock db.stocks ⟨oldStock.id, oldStock.category, oldStock.name,
              release oldStock.sizes order.size order.qty⟩, db.orders⟩
            (jsStrOr body.itemId order.itemId) with
        | none => simp only [hfn]
        | some newStock =>
          simp only [hfn] at h ⊢
          cases hres : reserve newStock.sizes (jsStrOr body.size order.size)
              (body.qty.getD order.qty) with
          | error avail => simp only [hres]
          | ok sizes' =>
            simp only [hres] at h
            simp at h

/-- C10 witness: updating a missing order id fails and leaves the
orders collection unchanged. -/
theorem update_failure_preserves_orders_witness :
    (updateOrder ⟨[⟨"A", "c", "n", [("M", 3)]⟩], []⟩ "o9"
        ⟨none, none, none, none, none, none, none, none, some 4, none, none, none⟩).1.orders
      = ([] : List OrderRec) :=
  update_failure_preserves_orders ⟨[⟨"A", "c", "n", [("M", 3)]⟩], []⟩ "o9"
    ⟨none, none, none, none, none, none, none, none, some 4, none, none, none⟩
    OrderError.orderNotFound rfl
